import Mathlib

/-!
Query layer of the state API (`node/impl/full/state.go`).

A shallow embedding of the methods of `StateAPI` and of the collaborators they
call, followed by the properties of the query layer.

Conventions of the embedding.

* A Go result `(*T, error)` is a pair `Option T × Option Err`; a result
  `(T, error)` of value type is `T × Option Err`; a slice is a list and the nil
  slice is `[]`.
* A method that can hit a run-time panic has result type `Go α`, which adds the
  outcome `panic` to the returned pair.
* Collaborators that live outside `state.go` are fields of `Pkgs`,
  `StateManager`, `ChainStore` and `Blockstore`.  Their Go results
  `(value, error)` are `Except Err value`: the code reads the value only when the
  error is nil.
* `context.Context` arguments carry no data the code reads and are dropped.
* `StateMinerPower` and `StateMinerPeerID` hand their arguments to `stmgr` and
  return its results; no property below is about them and they are left out.
-/

namespace Full

/-! ## Data model -/

/-- Byte strings (`[]byte`). -/
abbrev Bytes := List Nat

/-- Content identifier (`cid.Cid`). -/
structure Cid where
  str : String
  deriving DecidableEq, Repr

/-- Actor address (`address.Address`). -/
structure Address where
  str : String
  deriving DecidableEq, Repr

/-- The undefined address `address.Undef`, the zero value of the type. -/
def Address.Undef : Address := ⟨""⟩

/-- Go `error` values that the query layer creates or passes on. -/
inductive Err where
  /-- The error `strconv.NumError` with `ErrSyntax`, for the text `num`. -/
  | invalidNum (num : String)
  /-- The error `strconv.NumError` with `ErrRange`, for the text `num`. -/
  | outOfRange (num : String)
  /-- The error `fmt.Errorf(msg)` without arguments. -/
  | text (msg : String)
  /-- The error `xerrors.Errorf(msg, code)` with one `%d` argument. -/
  | withCode (msg : String) (code : Nat)
  /-- The error `xerrors.Errorf(msg, inner)` with one `%w` argument. -/
  | wrap (msg : String) (inner : Err)
  /-- The error `types.ErrActorNotFound`. -/
  | actorNotFound
  /-- Decoding the state of an actor kind that has no registered codec. -/
  | unsupportedActorKind
  /-- Any other error a collaborator reports (store, codec, replay). -/
  | collaborator (msg : String)
  deriving DecidableEq, Repr

/-- Outcome of running Go code that may panic: it returns the value `val`
together with the error `err` (`none` is the nil error), or it panics. -/
inductive Go (α : Type) where
  | ret (val : α) (err : Option Err)
  | panic
  deriving DecidableEq, Repr

/-- Tipset (`types.TipSet`): `Cids()` returns the field `cids`. -/
structure TipSet where
  cids : List Cid
  height : Nat
  deriving DecidableEq, Repr

/-- The method `(*TipSet).Cids`. -/
def TipSet.Cids (ts : TipSet) : List Cid := ts.cids

/-- Actor record (`types.Actor`). -/
structure Actor where
  Code : Cid
  Head : Cid
  Nonce : Nat
  Balance : Int
  deriving DecidableEq, Repr

/-- Miner actor state (`actors.StorageMinerActorState`): the two sector-set
roots the query layer reads. -/
structure StorageMinerActorState where
  Sectors : Cid
  ProvingSet : Cid
  deriving DecidableEq, Repr

/-- One entry of the result of a sector listing (`api.SectorInfo`). -/
structure SectorInfo where
  SectorID : Nat
  CommR : Bytes
  CommD : Bytes
  deriving DecidableEq, Repr

/-- Value stored in a HAMT (`interface{}`): a byte string or a value of any
other dynamic type. -/
inductive Val where
  | bytes (b : Bytes)
  | other (descr : String)
  deriving DecidableEq, Repr

/-! ## `strconv.ParseUint(k, 10, 64)` -/

/-- The constant `maxUint64` of `strconv`. -/
def maxUint64 : Nat := 2 ^ 64 - 1

/-- The loop of `strconv.ParseUint` for base 10 and bit size 64, with `n` the
value accumulated so far; `s0` is the whole input, kept for the error value.
The arithmetic is that of `uint64`.  Go walks the bytes of the string; base 10
admits no letter, sign or underscore, so every byte outside `0`-`9`, and with
it every character outside `0`-`9`, is a syntax error. -/
def parseLoop (s0 : String) : List Char → Nat → Except Err Nat
  | [], n => .ok n
  | c :: cs, n =>
    if 48 ≤ c.toNat ∧ c.toNat ≤ 57 then
      let d := c.toNat - 48
      if n ≥ maxUint64 / 10 + 1 then
        .error (.outOfRange s0)
      else
        let n10 := (n * 10) % 2 ^ 64
        let n1 := (n10 + d) % 2 ^ 64
        if n1 < n10 ∨ n1 > maxUint64 then
          .error (.outOfRange s0)
        else
          parseLoop s0 cs n1
    else
      .error (.invalidNum s0)

/-- The call `strconv.ParseUint(s, 10, 64)`: the empty string and any character
that is not a decimal digit give a syntax error, a value above `maxUint64`
gives a range error. -/
def ParseUint (s : String) : Except Err Nat :=
  if s.toList.length = 0 then .error (.invalidNum s)
  else parseLoop s s.toList 0

/-! ## HAMT traversal -/

/-- Modelled from the spec: the Merkle mapping's `forEach` (`hamt.Node` of
go-hamt-ipld, not under src/).  A loaded node is given by what its traversal
produces: the finite sequence `entries` of key/value pairs in bucket order and,
when a child node fails to load after them, the error `broken` that ends the
traversal. -/
structure Node where
  entries : List (String × Val)
  broken : Option Err
  deriving DecidableEq, Repr

/-- Visiting the entries in order with the callback `f`.  The state `σ` holds
the variables the Go closure captures; the traversal stops at the first entry
where the callback returns an error or panics. -/
def visitEntries {σ : Type} (f : σ → String → Val → Go σ) :
    List (String × Val) → σ → Go σ
  | [], s => .ret s none
  | (k, v) :: rest, s =>
    match f s k v with
    | .ret s1 none => visitEntries f rest s1
    | .ret s1 (some e) => .ret s1 (some e)
    | .panic => .panic

/-- Modelled from the spec: `(*hamt.Node).ForEach` (go-hamt-ipld, not under
src/): every entry is passed to the callback, the first error aborts the
traversal and is returned; a child that fails to load ends it with `broken`. -/
def Node.ForEach {σ : Type} (nd : Node) (f : σ → String → Val → Go σ) (s : σ) : Go σ :=
  match visitEntries f nd.entries s with
  | .ret s1 none => .ret s1 nd.broken
  | .ret s1 (some e) => .ret s1 (some e)
  | .panic => .panic

/-! ## Collaborators -/

/-- Block store (`blockstore.Blockstore`): `Get` returns the raw data of the
block stored under a CID, or an error. -/
structure Blockstore where
  Get : Cid → Except Err Bytes

/-- The service `Blocks` of a `hamt.CborIpldStore`. -/
structure Blocks where
  GetBlock : Cid → Except Err Bytes

/-- CBOR store over a block store (`hamt.CborIpldStore`). -/
structure CborIpldStore where
  Blocks : Blocks

/-- The constructor `hamt.CSTFromBstore`: `GetBlock` of the result is `Get` of
the block store. -/
def CSTFromBstore (bs : Blockstore) : CborIpldStore :=
  { Blocks := { GetBlock := fun c => bs.Get c } }

/-- Modelled from the spec: the state tree (`state.StateTree`, chain/state is
not under src/), a typed view over a Merkle mapping from actor address to actor
record.  `find` is the point lookup of the mapping: a store or decode error, or
the record when the address is present. -/
structure StateTree where
  Store : CborIpldStore
  find : Address → Except Err (Option Actor)

/-- Modelled from the spec: `(*state.StateTree).GetActor` (chain/state is not
under src/): the actor record of the address, `ActorNotFound` when the address
is absent, and the store's error when the lookup itself fails. -/
def StateTree.GetActor (st : StateTree) (addr : Address) : Except Err Actor :=
  match st.find addr with
  | .error err => .error err
  | .ok none => .error .actorNotFound
  | .ok (some act) => .ok act

/-- Chain store (`store.ChainStore`): its heaviest tipset and its block store. -/
structure ChainStore where
  heaviest : TipSet
  bs : Blockstore

/-- The method `(*ChainStore).GetHeaviestTipSet`. -/
def ChainStore.GetHeaviestTipSet (cs : ChainStore) : TipSet := cs.heaviest

/-- The method `(*ChainStore).Blockstore`. -/
def ChainStore.Blockstore (cs : ChainStore) : Blockstore := cs.bs

/-- Message (`types.Message`); the zero value has the undefined address, zero
numbers and no parameters. -/
structure Message where
  To : Address := Address.Undef
  From : Address := Address.Undef
  Nonce : Nat := 0
  Value : Int := 0
  GasPrice : Int := 0
  GasLimit : Int := 0
  Method : Nat := 0
  Params : Bytes := []
  deriving DecidableEq, Repr

/-- Receipt (`types.MessageReceipt`). -/
structure MessageReceipt where
  ExitCode : Nat
  Return : Bytes
  GasUsed : Int
  deriving DecidableEq, Repr

/-- Error raised inside an actor (`aerrors.ActorError`); `msg` is the text its
method `Error()` returns. -/
structure ActorError where
  retCode : Nat
  msg : String
  deriving DecidableEq, Repr

/-- The method `Error()` of an actor error. -/
def ActorError.Error (e : ActorError) : String := e.msg

/-- Result of applying a message (`vm.ApplyRet`): the receipt, and the actor
error when the execution raised one (`none` is the nil interface). -/
structure ApplyRet where
  MessageReceipt : MessageReceipt
  ActorErr : Option ActorError
  deriving DecidableEq, Repr

/-- State manager (`stmgr.StateManager`). -/
structure StateManager where
  cs : ChainStore
  TipSetState : List Cid → Except Err Cid
  Call : Message → Option TipSet → Except Err MessageReceipt
  Replay : Option TipSet → Cid → Except Err (Message × ApplyRet)

/-- The method `(*StateManager).ChainStore`. -/
def StateManager.ChainStore (sm : StateManager) : ChainStore := sm.cs

/-- Result of `StateReplay` (`api.ReplayResults`). -/
structure ReplayResults where
  Msg : Message
  Receipt : MessageReceipt
  Error : String
  deriving DecidableEq, Repr

/-- Decoded actor state (`interface{}` returned by `vm.DumpActorState`): an
introspectable structure, given by its field names and rendered values. -/
structure Dump where
  fields : List (String × String)
  deriving DecidableEq, Repr

/-- Result of `StateReadState` (`api.ActorState`). -/
structure ActorState where
  Balance : Int
  State : Dump
  deriving DecidableEq, Repr

/-- Block header (`types.BlockHeader`): the fields the miner address, the parent
tipset and the timestamp of a constructed block. -/
structure BlockHeader where
  Miner : Address
  Parents : List Cid
  Height : Nat
  StateRoot : Cid
  Timestamp : Nat
  deriving DecidableEq, Repr

/-- Signed message (`types.SignedMessage`). -/
structure SignedMessage where
  Message : Message
  Signature : Bytes
  deriving DecidableEq, Repr

/-- Full block (`types.FullBlock`). -/
structure FullBlock where
  Header : Option BlockHeader
  BlsMessages : List Message
  SecpkMessages : List SignedMessage
  deriving DecidableEq, Repr

/-- Block message (`chain.BlockMsg`). -/
structure BlockMsg where
  Header : Option BlockHeader := none
  BlsMessages : List Cid := []
  SecpkMessages : List Cid := []
  deriving DecidableEq, Repr

/-- Ticket (`types.Ticket`). -/
structure Ticket where
  VRFProof : Bytes
  deriving DecidableEq, Repr

/-- Wallet (`wallet.Wallet`): the addresses it holds keys for. -/
structure Wallet where
  keys : List Address
  deriving DecidableEq, Repr

/-- Package-level functions and constants that `state.go` imports. -/
structure Pkgs where
  /-- The function `state.LoadStateTree(cst, c)`. -/
  LoadStateTree : CborIpldStore → Cid → Except Err StateTree
  /-- The call `cst.Get(ctx, c, &minerState)`: fetch the block and decode it as a miner
  actor state. -/
  GetMinerState : CborIpldStore → Cid → Except Err StorageMinerActorState
  /-- The function `hamt.LoadNode(ctx, cst, c)`. -/
  LoadNode : CborIpldStore → Cid → Except Err Node
  /-- The call `cbor.DecodeInto(b, &comms)` with `comms` of type `[][]byte`. -/
  DecodeInto : Bytes → Except Err (List Bytes)
  /-- The function `address.NewFromBytes`. -/
  NewFromBytes : Bytes → Except Err Address
  /-- The function `bufbstore.NewBufferedBstore`. -/
  NewBufferedBstore : Blockstore → Blockstore
  /-- The constant `actors.MAMethods.GetWorkerAddr`. -/
  GetWorkerAddr : Nat
  /-- The codec registry behind `vm.DumpActorState`: the decoder registered for
  an actor kind, if any. -/
  registry : Cid → Option (Bytes → Except Err Dump)
  /-- The function `gen.MinerCreateBlock`. -/
  MinerCreateBlock : StateManager → Wallet → Address → Option TipSet → List Ticket →
    Bytes → List SignedMessage → Nat → Except Err FullBlock
  /-- The method `(*types.Message).Cid`. -/
  msgCid : Message → Cid
  /-- The method `(*types.SignedMessage).Cid`. -/
  smsgCid : SignedMessage → Cid

/-- Modelled from the spec: `vm.DumpActorState` (chain/vm is not under src/):
the block is decoded by the codec registered for the actor kind; decoding an
unknown kind fails with `UnsupportedActorKind`. -/
def DumpActorState (P : Pkgs) (code : Cid) (b : Bytes) : Except Err Dump :=
  match P.registry code with
  | none => .error .unsupportedActorKind
  | some dec => dec b

/-- The struct `StateAPI`. -/
structure StateAPI where
  Wallet : Wallet
  StateManager : StateManager
  Chain : ChainStore

/-! ## The methods of `StateAPI` -/

/-- The callback that `StateMinerSectors` and `StateMinerProvingSet` pass to
`ForEach`.  `sinfos` is the captured result slice; `comms[0]` and `comms[1]`
panic when the index is out of range. -/
def sectorVisit (P : Pkgs) (sinfos : List SectorInfo) (k : String) (val : Val) :
    Go (List SectorInfo) :=
  match ParseUint k with
  | .error err => .ret sinfos (some err)
  | .ok sid =>
    match val with
    | .other _ => .ret sinfos (some (.text "expected to get bytes in sector set hamt"))
    | .bytes bval =>
      match P.DecodeInto bval with
      | .error err => .ret sinfos (some err)
      | .ok comms =>
        match comms[0]?, comms[1]? with
        | some r, some d => .ret (sinfos ++ [{ SectorID := sid, CommR := r, CommD := d }]) none
        | _, _ => .panic

/-- The method `StateMinerSectors`.  The error that `ForEach` returns is
assigned to `err` and not read again: the method ends with
`return sinfos, nil`. -/
def StateMinerSectors (P : Pkgs) (a : StateAPI) (addr : Address) : Go (List SectorInfo) :=
  let ts := a.StateManager.ChainStore.GetHeaviestTipSet
  match a.StateManager.TipSetState ts.Cids with
  | .error err => .ret [] (some err)
  | .ok stc =>
    let cst := CSTFromBstore a.StateManager.ChainStore.Blockstore
    match P.LoadStateTree cst stc with
    | .error err => .ret [] (some err)
    | .ok st =>
      match st.GetActor addr with
      | .error err => .ret [] (some err)
      | .ok act =>
        match P.GetMinerState cst act.Head with
        | .error err => .ret [] (some err)
        | .ok minerState =>
          match P.LoadNode cst minerState.Sectors with
          | .error err => .ret [] (some err)
          | .ok nd =>
            match nd.ForEach (sectorVisit P) [] with
            | .ret sinfos _ => .ret sinfos none
            | .panic => .panic

/-- The method `StateMinerProvingSet`: the same steps over `a.Chain` and the
root `minerState.ProvingSet`. -/
def StateMinerProvingSet (P : Pkgs) (a : StateAPI) (addr : Address) : Go (List SectorInfo) :=
  let ts := a.Chain.GetHeaviestTipSet
  match a.StateManager.TipSetState ts.Cids with
  | .error err => .ret [] (some err)
  | .ok stc =>
    let cst := CSTFromBstore a.Chain.Blockstore
    match P.LoadStateTree cst stc with
    | .error err => .ret [] (some err)
    | .ok st =>
      match st.GetActor addr with
      | .error err => .ret [] (some err)
      | .ok act =>
        match P.GetMinerState cst act.Head with
        | .error err => .ret [] (some err)
        | .ok minerState =>
          match P.LoadNode cst minerState.ProvingSet with
          | .error err => .ret [] (some err)
          | .ok nd =>
            match nd.ForEach (sectorVisit P) [] with
            | .ret sinfos _ => .ret sinfos none
            | .panic => .panic

/-- The method `StateMinerWorker`. -/
def StateMinerWorker (P : Pkgs) (a : StateAPI) (m : Address) (ts : Option TipSet) :
    Address × Option Err :=
  match a.StateManager.Call { From := m, To := m, Method := P.GetWorkerAddr } ts with
  | .error err => (Address.Undef, some (.wrap "failed to get miner worker addr: %w" err))
  | .ok ret =>
    if ret.ExitCode ≠ 0 then
      (Address.Undef, some (.withCode "failed to get miner worker addr (exit code %d)" ret.ExitCode))
    else
      match P.NewFromBytes ret.Return with
      | .error err => (Address.Undef, some (.wrap "GetWorkerAddr returned malformed address: %w" err))
      | .ok w => (w, none)

/-- The method `StateCall`. -/
def StateCall (a : StateAPI) (msg : Message) (ts : Option TipSet) :
    Except Err MessageReceipt :=
  a.StateManager.Call msg ts

/-- The method `StateReplay`. -/
def StateReplay (a : StateAPI) (ts : Option TipSet) (mc : Cid) :
    Option ReplayResults × Option Err :=
  match a.StateManager.Replay ts mc with
  | .error err => (none, some err)
  | .ok (m, r) =>
    let errstr : String :=
      match r.ActorErr with
      | some ae => ae.Error
      | none => ""
    (some { Msg := m, Receipt := r.MessageReceipt, Error := errstr }, none)

/-- The method `stateForTs`: a nil tipset stands for the heaviest one. -/
def stateForTs (P : Pkgs) (a : StateAPI) (ts : Option TipSet) : Except Err StateTree :=
  let ts1 : TipSet :=
    match ts with
    | none => a.Chain.GetHeaviestTipSet
    | some t => t
  match a.StateManager.TipSetState ts1.Cids with
  | .error err => .error err
  | .ok st =>
    let buf := P.NewBufferedBstore a.Chain.Blockstore
    let cst := CSTFromBstore buf
    P.LoadStateTree cst st

/-- The method `StateGetActor`: the two results of `GetActor` are returned as
they are. -/
def StateGetActor (P : Pkgs) (a : StateAPI) (actor : Address) (ts : Option TipSet) :
    Option Actor × Option Err :=
  match stateForTs P a ts with
  | .error err => (none, some err)
  | .ok state =>
    match state.GetActor actor with
    | .error err => (none, some err)
    | .ok act => (some act, none)

/-- The method `StateReadState`. -/
def StateReadState (P : Pkgs) (a : StateAPI) (act : Actor) (ts : Option TipSet) :
    Option ActorState × Option Err :=
  match stateForTs P a ts with
  | .error err => (none, some err)
  | .ok state =>
    match state.Store.Blocks.GetBlock act.Head with
    | .error err => (none, some err)
    | .ok blk =>
      match DumpActorState P act.Code blk with
      | .error err => (none, some err)
      | .ok oif => (some { Balance := act.Balance, State := oif }, none)

/-- The loop `for _, msg := range msgs { out = append(out, cidOf(msg)) }`. -/
def appendCids {μ : Type} (cidOf : μ → Cid) (msgs : List μ) (out : List Cid) : List Cid :=
  msgs.foldl (fun acc msg => acc ++ [cidOf msg]) out

/-- The method `MinerCreateBlock`. -/
def MinerCreateBlock (P : Pkgs) (a : StateAPI) (addr : Address) (parents : Option TipSet)
    (tickets : List Ticket) (proof : Bytes) (msgs : List SignedMessage) (ts : Nat) :
    Option BlockMsg × Option Err :=
  match P.MinerCreateBlock a.StateManager a.Wallet addr parents tickets proof msgs ts with
  | .error err => (none, some err)
  | .ok fblk =>
    let out : BlockMsg := {}
    let out := { out with Header := fblk.Header }
    let out := { out with BlsMessages := appendCids P.msgCid fblk.BlsMessages out.BlsMessages }
    let out := { out with SecpkMessages := appendCids P.smsgCid fblk.SecpkMessages out.SecpkMessages }
    (some out, none)

/-! ## The sector sets a listing reads -/

/-- The node that `StateMinerSectors` passes to `ForEach`: the steps of the
method up to `hamt.LoadNode`, over the chain store of the state manager and the
root `minerState.Sectors`. -/
def sectorSetOf (P : Pkgs) (a : StateAPI) (addr : Address) : Except Err Node :=
  let ts := a.StateManager.ChainStore.GetHeaviestTipSet
  match a.StateManager.TipSetState ts.Cids with
  | .error err => .error err
  | .ok stc =>
    let cst := CSTFromBstore a.StateManager.ChainStore.Blockstore
    match P.LoadStateTree cst stc with
    | .error err => .error err
    | .ok st =>
      match st.GetActor addr with
      | .error err => .error err
      | .ok act =>
        match P.GetMinerState cst act.Head with
        | .error err => .error err
        | .ok minerState => P.LoadNode cst minerState.Sectors

/-- The node that `StateMinerProvingSet` passes to `ForEach`: the steps of the
method up to `hamt.LoadNode`, over `a.Chain` and the root
`minerState.ProvingSet`. -/
def provingSetOf (P : Pkgs) (a : StateAPI) (addr : Address) : Except Err Node :=
  let ts := a.Chain.GetHeaviestTipSet
  match a.StateManager.TipSetState ts.Cids with
  | .error err => .error err
  | .ok stc =>
    let cst := CSTFromBstore a.Chain.Blockstore
    match P.LoadStateTree cst stc with
    | .error err => .error err
    | .ok st =>
      match st.GetActor addr with
      | .error err => .error err
      | .ok act =>
        match P.GetMinerState cst act.Head with
        | .error err => .error err
        | .ok minerState => P.LoadNode cst minerState.ProvingSet

/-- The packages in which every decoded miner state has its `Sectors` root
replaced by its `ProvingSet` root. -/
def Pkgs.provingAsSectors (P : Pkgs) : Pkgs :=
  { P with
    GetMinerState := fun cst c =>
      match P.GetMinerState cst c with
      | .error err => .error err
      | .ok minerState => .ok { minerState with Sectors := minerState.ProvingSet } }

/-! ## A sample node -/

/-- Reading `n` CBOR byte strings with a length below 24 from the input. -/
def cborItems : Nat → Bytes → Except Err (List Bytes)
  | 0, [] => .ok []
  | 0, _ :: _ => .error (.collaborator "cbor: trailing bytes")
  | _ + 1, [] => .error (.collaborator "cbor: unexpected end of input")
  | n + 1, h :: t =>
    if 64 ≤ h ∧ h < 88 then
      if t.length < h - 64 then .error (.collaborator "cbor: unexpected end of input")
      else
        match cborItems n (t.drop (h - 64)) with
        | .error e => .error e
        | .ok rest => .ok (t.take (h - 64) :: rest)
    else .error (.collaborator "cbor: expected a byte string")

/-- A CBOR decoder for short arrays of short byte strings, the codec of the
sample node. -/
def cborByteStrings : Bytes → Except Err (List Bytes)
  | [] => .error (.collaborator "cbor: unexpected end of input")
  | h :: t =>
    if 128 ≤ h ∧ h < 152 then cborItems (h - 128) t
    else .error (.collaborator "cbor: expected an array")

/-- The miner of the sample node. -/
def sampleMiner : Address := ⟨"t0101"⟩

/-- The actor record of the sample miner. -/
def sampleActor : Actor :=
  { Code := ⟨"miner-code"⟩, Head := ⟨"miner-head"⟩, Nonce := 3, Balance := 1000 }

/-- The chain store of the sample node: the only stored block is the state of
the sample miner. -/
def sampleChain : ChainStore :=
  { heaviest := { cids := [⟨"blk-a"⟩, ⟨"blk-b"⟩], height := 7 }
    bs := { Get := fun c =>
      if c = ⟨"miner-head"⟩ then .ok [162, 1, 2] else .error (.collaborator "blockstore: block not found") } }

/-- The state manager of the sample node.  Calls to the sample miner are
answered by `callResult`, replays of the message `msg-1` by `replayResult`. -/
def sampleManager (callResult : Except Err MessageReceipt)
    (replayResult : Except Err (Message × ApplyRet)) : StateManager :=
  { cs := sampleChain
    TipSetState := fun cids =>
      if cids = [⟨"blk-a"⟩, ⟨"blk-b"⟩] then .ok ⟨"state-root"⟩
      else .error (.collaborator "stmgr: unknown tipset")
    Call := fun msg _ =>
      if msg.To = sampleMiner then callResult else .error (.collaborator "stmgr: no such actor")
    Replay := fun _ mc =>
      if mc = ⟨"msg-1"⟩ then replayResult else .error (.collaborator "stmgr: message not found") }

/-- The sample node. -/
def sampleAPI (callResult : Except Err MessageReceipt)
    (replayResult : Except Err (Message × ApplyRet)) : StateAPI :=
  { Wallet := { keys := [sampleMiner] }
    StateManager := sampleManager callResult replayResult
    Chain := sampleChain }

/-- The sample node with no call or replay result. -/
def sampleNode : StateAPI :=
  sampleAPI (.error (.collaborator "stmgr: call failed")) (.error (.collaborator "stmgr: replay failed"))

/-- The packages of the sample node: the state tree holds the sample miner only,
whose sector set is `sectors` and whose proving set is `proving`; block
construction gives `built`. -/
def samplePkgs (sectors proving : Node) (built : Except Err FullBlock) : Pkgs :=
  { LoadStateTree := fun cst c =>
      if c = ⟨"state-root"⟩ then
        .ok { Store := cst
              find := fun addr => if addr = sampleMiner then .ok (some sampleActor) else .ok none }
      else .error (.collaborator "state: root not found")
    GetMinerState := fun cst c =>
      match cst.Blocks.GetBlock c with
      | .error e => .error e
      | .ok _ => .ok { Sectors := ⟨"sectors"⟩, ProvingSet := ⟨"proving"⟩ }
    LoadNode := fun _ c =>
      if c = ⟨"sectors"⟩ then .ok sectors
      else if c = ⟨"proving"⟩ then .ok proving
      else .error (.collaborator "hamt: node not found")
    DecodeInto := cborByteStrings
    NewFromBytes := fun b =>
      if b = [] then .error (.collaborator "address: invalid bytes") else .ok ⟨String.mk (b.map Char.ofNat)⟩
    NewBufferedBstore := fun base => { Get := fun c => base.Get c }
    GetWorkerAddr := 9
    registry := fun code =>
      if code = ⟨"miner-code"⟩ then some (fun b => .ok { fields := [("bytes", toString b.length)] })
      else none
    MinerCreateBlock := fun _ _ _ _ _ _ _ _ => built
    msgCid := fun m => ⟨"bls-" ++ toString m.Nonce⟩
    smsgCid := fun m => ⟨"secp-" ++ toString m.Message.Nonce⟩ }

/-- The sector set with the keys 1, 2 and 5. -/
def sectors125 : Node :=
  { entries := [("1", .bytes [130, 66, 11, 12, 66, 13, 14]),
                ("2", .bytes [130, 66, 21, 22, 66, 23, 24]),
                ("5", .bytes [130, 66, 51, 52, 66, 53, 54])]
    broken := none }

/-- The empty sector set. -/
def noSectors : Node := { entries := [], broken := none }

/-- The sample packages with no block built. -/
def pkgsWith (sectors proving : Node) : Pkgs :=
  samplePkgs sectors proving (.error (.collaborator "gen: no block"))

/-- A sector set whose second key is not a decimal number. -/
def badKeySet : Node :=
  { entries := [("1", .bytes [130, 66, 11, 12, 66, 13, 14]),
                ("x", .bytes [130, 66, 21, 22, 66, 23, 24]),
                ("5", .bytes [130, 66, 51, 52, 66, 53, 54])]
    broken := none }

/-- A sector set whose first value is not a byte string. -/
def badValueSet : Node :=
  { entries := [("1", .other "map"), ("2", .bytes [130, 66, 21, 22, 66, 23, 24])]
    broken := none }

/-- A sector set whose only value is a byte string that is not the encoding of
a list of byte strings. -/
def badBytesSet : Node :=
  { entries := [("1", .bytes [24, 7])], broken := none }

/-- An older tipset of the sample chain, from before the sample miner was
created. -/
def olderTipSet : TipSet := { cids := [⟨"blk-0"⟩], height := 3 }

/-- The HAMT of the state tree of the sample node: its values are actor
records, not pairs of commitments. -/
def actorsNode : Node :=
  { entries := [("t0101", .other "actor record")], broken := none }

/-- The sample node with a state manager that also resolves `olderTipSet`. -/
def historyNode : StateAPI :=
  { Wallet := { keys := [sampleMiner] }
    StateManager :=
      { cs := sampleChain
        TipSetState := fun cids =>
          if cids = [⟨"blk-a"⟩, ⟨"blk-b"⟩] then .ok ⟨"state-root"⟩
          else if cids = [⟨"blk-0"⟩] then .ok ⟨"old-root"⟩
          else .error (.collaborator "stmgr: unknown tipset")
        Call := fun _ _ => .error (.collaborator "stmgr: call failed")
        Replay := fun _ _ => .error (.collaborator "stmgr: replay failed") }
    Chain := sampleChain }

/-- The packages of `historyNode`: the state tree under `old-root` holds no
actor, the one under `state-root` holds the sample miner, and the HAMT of the
state tree can be loaded as a node next to the sector set and the proving
set. -/
def historyPkgs (sectors proving : Node) : Pkgs :=
  { pkgsWith sectors proving with
    LoadStateTree := fun cst c =>
      if c = ⟨"state-root"⟩ then
        .ok { Store := cst
              find := fun addr => if addr = sampleMiner then .ok (some sampleActor) else .ok none }
      else if c = ⟨"old-root"⟩ then
        .ok { Store := cst, find := fun _ => .ok none }
      else .error (.collaborator "state: root not found")
    LoadNode := fun _ c =>
      if c = ⟨"sectors"⟩ then .ok sectors
      else if c = ⟨"proving"⟩ then .ok proving
      else if c = ⟨"state-root"⟩ then .ok actorsNode
      else .error (.collaborator "hamt: node not found") }

/-- A receipt of the sample miner that carries the worker address `t3w`. -/
def workerReceipt : MessageReceipt := { ExitCode := 0, Return := [116, 51, 119], GasUsed := 12 }

/-- A receipt of the sample miner with a non-zero exit code. -/
def failedReceipt : MessageReceipt := { ExitCode := 2, Return := [116, 51, 119], GasUsed := 12 }

/-- The message replayed on the sample node. -/
def replayedMsg : Message :=
  { To := sampleMiner, From := ⟨"t1sender"⟩, Nonce := 4, Value := 10, Method := 2 }

/-- A replay result that carries an actor error. -/
def abortedRet : ApplyRet :=
  { MessageReceipt := { ExitCode := 16, Return := [], GasUsed := 30 }
    ActorErr := some { retCode := 16, msg := "not enough funds" } }

/-- A replay result without an actor error. -/
def cleanRet : ApplyRet :=
  { MessageReceipt := { ExitCode := 0, Return := [1], GasUsed := 30 }
    ActorErr := none }

/-- A block built on the sample node. -/
def builtBlock : FullBlock :=
  { Header := some { Miner := sampleMiner, Parents := [⟨"blk-a"⟩, ⟨"blk-b"⟩], Height := 8,
                     StateRoot := ⟨"state-root"⟩, Timestamp := 1570000000 }
    BlsMessages := [{ Nonce := 1 }, { Nonce := 2 }]
    SecpkMessages := [{ Message := { Nonce := 7 }, Signature := [9] }] }

/-- An actor record whose kind has no registered codec. -/
def unknownKindActor : Actor :=
  { Code := ⟨"unknown-code"⟩, Head := ⟨"miner-head"⟩, Nonce := 0, Balance := 5 }

/-- An actor record whose state block is not in the block store. -/
def headlessActor : Actor :=
  { Code := ⟨"miner-code"⟩, Head := ⟨"missing-head"⟩, Nonce := 0, Balance := 5 }

/-! ## `ParseUint` reads back the decimal string of a `uint64` -/

theorem digitChar_isDigit (d : Nat) (h : d < 10) :
    48 ≤ (Nat.digitChar d).toNat ∧ (Nat.digitChar d).toNat ≤ 57 ∧
      (Nat.digitChar d).toNat - 48 = d := by
  interval_cases d <;> decide

theorem parseLoop_digit (s0 : String) (d n : Nat) (cs : List Char) (hd : d < 10)
    (hn : n * 10 + d < 2 ^ 64) :
    parseLoop s0 (Nat.digitChar d :: cs) n = parseLoop s0 cs (n * 10 + d) := by
  obtain ⟨h1, h2, h3⟩ := digitChar_isDigit d hd
  have e10 : n * 10 % 2 ^ 64 = n * 10 := Nat.mod_eq_of_lt (by omega)
  have e1 : (n * 10 + d) % 2 ^ 64 = n * 10 + d := Nat.mod_eq_of_lt hn
  have hc : ¬ n ≥ maxUint64 / 10 + 1 := by
    simp only [maxUint64]
    norm_num at hn ⊢
    omega
  have hm : ¬ (n * 10 + d < n * 10 ∨ n * 10 + d > maxUint64) := by
    simp only [maxUint64]
    norm_num at hn ⊢
    omega
  simp only [parseLoop, h1, h2, h3, and_self, if_true, hc, if_false, e10, e1, hm]

theorem parseLoop_toDigitsCore (s0 : String) :
    ∀ (fuel n : Nat) (ds : List Char), n < fuel → n < 2 ^ 64 →
      parseLoop s0 (Nat.toDigitsCore 10 fuel n ds) 0 = parseLoop s0 ds n := by
  intro fuel
  induction fuel with
  | zero => intro n ds h; omega
  | succ f ih =>
    intro n ds hf hn
    have hd : n % 10 < 10 := Nat.mod_lt _ (by decide)
    simp only [Nat.toDigitsCore]
    by_cases h0 : n / 10 = 0
    · simp only [h0, if_true]
      have hlt : n < 10 := by omega
      rw [parseLoop_digit s0 (n % 10) 0 ds hd (by omega)]
      congr 1
      omega
    · simp only [h0, if_false]
      rw [ih (n / 10) _ (by omega) (by omega),
        parseLoop_digit s0 (n % 10) (n / 10) ds hd (by omega)]
      congr 1
      omega

theorem toDigitsCore_length_ge (fuel : Nat) :
    ∀ (n : Nat) (ds : List Char), ds.length ≤ (Nat.toDigitsCore 10 fuel n ds).length := by
  induction fuel with
  | zero => intro n ds; simp [Nat.toDigitsCore]
  | succ f ih =>
    intro n ds
    simp only [Nat.toDigitsCore]
    split
    · simp
    · exact Nat.le_trans (by simp) (ih _ _)

/-- Parsing the decimal string of a `uint64` gives the number back. -/
theorem ParseUint_repr (n : Nat) (h : n < 2 ^ 64) : ParseUint (Nat.repr n) = .ok n := by
  have hlen : (Nat.repr n).toList.length ≠ 0 := by
    have := toDigitsCore_length_ge (n + 1) n []
    simp only [Nat.toDigitsCore] at this
    simp only [Nat.repr, Nat.toDigits, List.asString, String.toList]
    split at this
    · simp [Nat.toDigitsCore, *]
    · rename_i h0
      have h2 := toDigitsCore_length_ge n (n / 10) [Nat.digitChar (n % 10)]
      simp only [Nat.toDigitsCore, h0, if_false]
      simp at h2
      omega
  unfold ParseUint
  rw [if_neg hlen]
  simp only [Nat.repr, Nat.toDigits, List.asString, String.toList]
  rw [parseLoop_toDigitsCore _ (n + 1) n [] (by omega) h]
  rfl

/-! ## The listing in terms of the node it traverses -/

theorem StateMinerSectors_eq (P : Pkgs) (a : StateAPI) (addr : Address) :
    StateMinerSectors P a addr =
      match sectorSetOf P a addr with
      | .error err => .ret [] (some err)
      | .ok nd =>
        match nd.ForEach (sectorVisit P) [] with
        | .ret sinfos _ => .ret sinfos none
        | .panic => .panic := by
  simp only [StateMinerSectors, sectorSetOf]
  repeat' split
  all_goals simp_all

theorem StateMinerProvingSet_eq (P : Pkgs) (a : StateAPI) (addr : Address) :
    StateMinerProvingSet P a addr =
      match provingSetOf P a addr with
      | .error err => .ret [] (some err)
      | .ok nd =>
        match nd.ForEach (sectorVisit P) [] with
        | .ret sinfos _ => .ret sinfos none
        | .panic => .panic := by
  simp only [StateMinerProvingSet, provingSetOf]
  repeat' split
  all_goals simp_all

/-! ## The callback on one entry -/

theorem sectorVisit_pair (P : Pkgs) (sinfos : List SectorInfo) (k : String) (b : Bytes)
    (sid : Nat) (r d : Bytes) (hk : ParseUint k = .ok sid) (hb : P.DecodeInto b = .ok [r, d]) :
    sectorVisit P sinfos k (.bytes b) =
      .ret (sinfos ++ [{ SectorID := sid, CommR := r, CommD := d }]) none := by
  simp [sectorVisit, hk, hb]

/-- What one call of the callback can do: it leaves `sinfos` as it is, or it
appends the sector info built from the first two elements of the decoded
list. -/
theorem sectorVisit_ret (P : Pkgs) (sinfos out : List SectorInfo) (k : String) (v : Val)
    (err : Option Err) (h : sectorVisit P sinfos k v = .ret out err) :
    (out = sinfos ∧ err ≠ none) ∨
      ∃ sid b comms r d, v = .bytes b ∧ ParseUint k = .ok sid ∧ P.DecodeInto b = .ok comms ∧
        comms[0]? = some r ∧ comms[1]? = some d ∧ err = none ∧
        out = sinfos ++ [{ SectorID := sid, CommR := r, CommD := d }] := by
  unfold sectorVisit at h
  split at h
  · simp only [Go.ret.injEq] at h
    exact Or.inl ⟨h.1.symm, by simp [← h.2]⟩
  · rename_i sid hsid
    split at h
    · simp only [Go.ret.injEq] at h
      exact Or.inl ⟨h.1.symm, by simp [← h.2]⟩
    · rename_i bval
      split at h
      · simp only [Go.ret.injEq] at h
        exact Or.inl ⟨h.1.symm, by simp [← h.2]⟩
      · rename_i comms hcomms
        split at h
        · rename_i r d hr hd
          simp only [Go.ret.injEq] at h
          exact Or.inr ⟨sid, bval, comms, r, d, rfl, hsid, hcomms, hr, hd, h.2.symm, h.1.symm⟩
        · exact absurd h (by simp)

/-! ## The traversal with the listing callback -/

theorem visitEntries_pairs (P : Pkgs) :
    ∀ (secs : List (Nat × Bytes × Bytes × Bytes)) (acc : List SectorInfo),
      (∀ s ∈ secs, s.1 < 2 ^ 64 ∧ P.DecodeInto s.2.1 = .ok [s.2.2.1, s.2.2.2]) →
      visitEntries (sectorVisit P) (secs.map (fun s => (Nat.repr s.1, Val.bytes s.2.1))) acc =
        .ret (acc ++ secs.map (fun s => { SectorID := s.1, CommR := s.2.2.1, CommD := s.2.2.2 }))
          none := by
  intro secs
  induction secs with
  | nil => intro acc _; simp [visitEntries]
  | cons s rest ih =>
    intro acc h
    have hs := h s (List.mem_cons_self _ _)
    have hrest : ∀ t ∈ rest, t.1 < 2 ^ 64 ∧ P.DecodeInto t.2.1 = .ok [t.2.2.1, t.2.2.2] :=
      fun t ht => h t (List.mem_cons_of_mem _ ht)
    simp only [List.map_cons, visitEntries]
    rw [sectorVisit_pair P acc _ _ s.1 s.2.2.1 s.2.2.2 (ParseUint_repr s.1 hs.1) hs.2]
    simp only
    rw [ih _ hrest]
    simp

theorem visitEntries_built (P : Pkgs) :
    ∀ (es : List (String × Val)) (acc out : List SectorInfo) (err : Option Err),
      visitEntries (sectorVisit P) es acc = .ret out err →
      ∀ si ∈ out, si ∈ acc ∨
        ∃ k b comms, (k, Val.bytes b) ∈ es ∧ ParseUint k = .ok si.SectorID ∧
          P.DecodeInto b = .ok comms ∧ 2 ≤ comms.length ∧
          comms[0]? = some si.CommR ∧ comms[1]? = some si.CommD := by
  intro es
  induction es with
  | nil =>
    intro acc out err h si hsi
    simp only [visitEntries, Go.ret.injEq] at h
    exact Or.inl (h.1 ▸ hsi)
  | cons e rest ih =>
    intro acc out err h si hsi
    obtain ⟨k, v⟩ := e
    simp only [visitEntries] at h
    split at h
    · rename_i s1 hv
      rcases sectorVisit_ret P acc s1 k v none hv with ⟨_, hne⟩ | ⟨sid, b, comms, r, d, hvb, hk, hb, hr, hd, _, hout⟩
      · exact absurd rfl hne
      · rcases ih s1 out err h si hsi with hin | ⟨k2, b2, comms2, hmem, hrest⟩
        · rw [hout, List.mem_append, List.mem_singleton] at hin
          rcases hin with hin | hin
          · exact Or.inl hin
          · refine Or.inr ⟨k, b, comms, ?_, ?_, hb, ?_, ?_, ?_⟩
            · rw [hvb]; exact List.mem_cons_self _ _
            · rw [hin]; exact hk
            · have h1 : 1 < comms.length := by
                by_contra hlt
                have : comms[1]? = none := List.getElem?_eq_none (by omega)
                rw [this] at hd
                exact absurd hd (by simp)
              omega
            · rw [hin]; exact hr
            · rw [hin]; exact hd
        · exact Or.inr ⟨k2, b2, comms2, List.mem_cons_of_mem _ hmem, hrest⟩
    · rename_i s1 e1 hv
      simp only [Go.ret.injEq] at h
      rcases sectorVisit_ret P acc s1 k v (some e1) hv with ⟨hs1, _⟩ | ⟨_, _, _, _, _, _, _, _, _, _, hne, _⟩
      · rw [← h.1, hs1] at hsi
        exact Or.inl hsi
      · exact absurd hne (by simp)
    · exact absurd h (by simp)

theorem visitEntries_no_panic (P : Pkgs) :
    ∀ (es : List (String × Val)) (acc : List SectorInfo),
      (∀ e ∈ es, ∃ b comms, e.2 = Val.bytes b ∧ P.DecodeInto b = .ok comms ∧ comms.length = 2) →
      visitEntries (sectorVisit P) es acc ≠ .panic := by
  intro es
  induction es with
  | nil => intro acc _; simp [visitEntries]
  | cons e rest ih =>
    intro acc h
    obtain ⟨k, v⟩ := e
    obtain ⟨b, comms, hv, hb, hlen⟩ := h (k, v) (List.mem_cons_self _ _)
    have hrest := fun t ht => h t (List.mem_cons_of_mem _ ht)
    simp only at hv
    subst hv
    match comms, hlen with
    | [r, d], _ =>
      simp only [visitEntries]
      cases hk : ParseUint k with
      | error e1 => simp [sectorVisit, hk]
      | ok sid =>
        rw [sectorVisit_pair P acc k b sid r d hk hb]
        exact ih _ hrest

theorem ForEach_no_panic (P : Pkgs) (nd : Node) (acc : List SectorInfo)
    (h : ∀ e ∈ nd.entries, ∃ b comms, e.2 = Val.bytes b ∧ P.DecodeInto b = .ok comms ∧
      comms.length = 2) :
    nd.ForEach (sectorVisit P) acc ≠ .panic := by
  have hv := visitEntries_no_panic P nd.entries acc h
  unfold Node.ForEach
  split <;> simp_all

theorem sectorSetOf_loaded (P : Pkgs) (a : StateAPI) (addr : Address) (nd : Node)
    (h : sectorSetOf P a addr = .ok nd) : ∃ cst c, P.LoadNode cst c = .ok nd := by
  simp only [sectorSetOf] at h
  repeat' split at h
  all_goals first
    | exact ⟨_, _, h⟩
    | exact absurd h (by simp)

theorem provingSetOf_loaded (P : Pkgs) (a : StateAPI) (addr : Address) (nd : Node)
    (h : provingSetOf P a addr = .ok nd) : ∃ cst c, P.LoadNode cst c = .ok nd := by
  simp only [provingSetOf] at h
  repeat' split at h
  all_goals first
    | exact ⟨_, _, h⟩
    | exact absurd h (by simp)

/-! ## Sector listing -/

/-- C1: when the miner's sector set enumerates, without a failure, to entries
whose keys are the decimal strings of sector ids below `2 ^ 64` and whose values
are byte strings that decode to a pair `[R, D]`, `StateMinerSectors` returns no
error and exactly one `SectorInfo` per entry, in the order of the enumeration,
with that id and those commitments. -/
theorem StateMinerSectors_lists_every_entry (P : Pkgs) (a : StateAPI) (addr : Address)
    (nd : Node) (secs : List (Nat × Bytes × Bytes × Bytes))
    (hload : sectorSetOf P a addr = .ok nd)
    (hentries : nd.entries = secs.map (fun s => (Nat.repr s.1, Val.bytes s.2.1)))
    (hfull : nd.broken = none)
    (hgood : ∀ s ∈ secs, s.1 < 2 ^ 64 ∧ P.DecodeInto s.2.1 = .ok [s.2.2.1, s.2.2.2]) :
    StateMinerSectors P a addr =
      .ret (secs.map (fun s => { SectorID := s.1, CommR := s.2.2.1, CommD := s.2.2.2 })) none := by
  rw [StateMinerSectors_eq, hload]
  simp only [Node.ForEach, hentries, hfull, visitEntries_pairs P secs [] hgood, List.nil_append]

/-- C1, on the sector set with the keys 1, 2 and 5: three entries with the ids
1, 2, 5 and their own commitment bytes. -/
theorem StateMinerSectors_lists_every_entry_witness :
    StateMinerSectors (pkgsWith sectors125 noSectors) sampleNode sampleMiner =
      .ret [⟨1, [11, 12], [13, 14]⟩, ⟨2, [21, 22], [23, 24]⟩, ⟨5, [51, 52], [53, 54]⟩] none :=
  StateMinerSectors_lists_every_entry (pkgsWith sectors125 noSectors) sampleNode sampleMiner
    sectors125
    [(1, [130, 66, 11, 12, 66, 13, 14], [11, 12], [13, 14]),
     (2, [130, 66, 21, 22, 66, 23, 24], [21, 22], [23, 24]),
     (5, [130, 66, 51, 52, 66, 53, 54], [51, 52], [53, 54])]
    rfl rfl rfl
    (by
      intro s hs
      simp only [List.mem_cons, List.mem_singleton, List.not_mem_nil, or_false] at hs
      rcases hs with rfl | rfl | rfl <;> exact ⟨by decide, rfl⟩)

/-- C2: the code at three failing sector sets.  In each of them the traversal
ends with the error of the callback (a key that is not a decimal number, a value
that is not a byte string, bytes that do not decode), and both listings return
the sector infos collected so far together with the nil error. -/
theorem listing_returns_nil_error_on_failed_visit :
    (badKeySet.ForEach (sectorVisit (pkgsWith badKeySet badKeySet)) [] =
        .ret [⟨1, [11, 12], [13, 14]⟩] (some (.invalidNum "x")) ∧
      StateMinerSectors (pkgsWith badKeySet badKeySet) sampleNode sampleMiner =
        .ret [⟨1, [11, 12], [13, 14]⟩] none ∧
      StateMinerProvingSet (pkgsWith badKeySet badKeySet) sampleNode sampleMiner =
        .ret [⟨1, [11, 12], [13, 14]⟩] none) ∧
    (badValueSet.ForEach (sectorVisit (pkgsWith badValueSet badValueSet)) [] =
        .ret [] (some (.text "expected to get bytes in sector set hamt")) ∧
      StateMinerSectors (pkgsWith badValueSet badValueSet) sampleNode sampleMiner =
        .ret [] none ∧
      StateMinerProvingSet (pkgsWith badValueSet badValueSet) sampleNode sampleMiner =
        .ret [] none) ∧
    (badBytesSet.ForEach (sectorVisit (pkgsWith badBytesSet badBytesSet)) [] =
        .ret [] (some (.collaborator "cbor: expected an array")) ∧
      StateMinerSectors (pkgsWith badBytesSet badBytesSet) sampleNode sampleMiner =
        .ret [] none ∧
      StateMinerProvingSet (pkgsWith badBytesSet badBytesSet) sampleNode sampleMiner =
        .ret [] none) := by
  decide

/-- Every `SectorInfo` that a listing returns comes from an entry of the set the
method reads: the key parses to the sector id, the value is a byte string, and
`CommR` and `CommD` are the elements 0 and 1 of its decoded list. -/
theorem listed_sector_from_entry (P : Pkgs) (a : StateAPI)
    (addr : Address) (sinfos : List SectorInfo) (err : Option Err) (si : SectorInfo)
    (hsi : si ∈ sinfos) :
    (StateMinerSectors P a addr = .ret sinfos err →
      ∃ nd k b comms, sectorSetOf P a addr = .ok nd ∧ (k, Val.bytes b) ∈ nd.entries ∧
        ParseUint k = .ok si.SectorID ∧ P.DecodeInto b = .ok comms ∧ 2 ≤ comms.length ∧
        comms[0]? = some si.CommR ∧ comms[1]? = some si.CommD) ∧
    (StateMinerProvingSet P a addr = .ret sinfos err →
      ∃ nd k b comms, provingSetOf P a addr = .ok nd ∧ (k, Val.bytes b) ∈ nd.entries ∧
        ParseUint k = .ok si.SectorID ∧ P.DecodeInto b = .ok comms ∧ 2 ≤ comms.length ∧
        comms[0]? = some si.CommR ∧ comms[1]? = some si.CommD) := by
  have key : ∀ (nd : Node) (out : List SectorInfo) (e : Option Err),
      nd.ForEach (sectorVisit P) [] = .ret out e → si ∈ out →
      ∃ k b comms, (k, Val.bytes b) ∈ nd.entries ∧
        ParseUint k = .ok si.SectorID ∧ P.DecodeInto b = .ok comms ∧ 2 ≤ comms.length ∧
        comms[0]? = some si.CommR ∧ comms[1]? = some si.CommD := by
    intro nd out e h hin
    unfold Node.ForEach at h
    split at h
    · rename_i s1 hv
      simp only [Go.ret.injEq] at h
      rcases visitEntries_built P nd.entries [] s1 none hv si (h.1 ▸ hin) with hnil | hex
      · exact absurd hnil (List.not_mem_nil _)
      · exact hex
    · rename_i s1 e1 hv
      simp only [Go.ret.injEq] at h
      rcases visitEntries_built P nd.entries [] s1 (some e1) hv si (h.1 ▸ hin) with hnil | hex
      · exact absurd hnil (List.not_mem_nil _)
      · exact hex
    · exact absurd h (by simp)
  constructor
  · intro h
    rw [StateMinerSectors_eq] at h
    split at h
    · simp only [Go.ret.injEq] at h
      rw [← h.1] at hsi
      exact absurd hsi (List.not_mem_nil _)
    · rename_i nd hnd
      split at h
      · rename_i out e hfe
        simp only [Go.ret.injEq] at h
        obtain ⟨k, b, comms, hrest⟩ := key nd out e hfe (h.1 ▸ hsi)
        exact ⟨nd, k, b, comms, hnd, hrest⟩
      · exact absurd h (by simp)
  · intro h
    rw [StateMinerProvingSet_eq] at h
    split at h
    · simp only [Go.ret.injEq] at h
      rw [← h.1] at hsi
      exact absurd hsi (List.not_mem_nil _)
    · rename_i nd hnd
      split at h
      · rename_i out e hfe
        simp only [Go.ret.injEq] at h
        obtain ⟨k, b, comms, hrest⟩ := key nd out e hfe (h.1 ▸ hsi)
        exact ⟨nd, k, b, comms, hnd, hrest⟩
      · exact absurd h (by simp)

theorem sectors125_pairs (e : String × Val) (he : e ∈ sectors125.entries) :
    ∃ b comms, e.2 = Val.bytes b ∧ cborByteStrings b = .ok comms ∧ comms.length = 2 := by
  simp only [sectors125, List.mem_cons, List.mem_singleton, List.not_mem_nil, or_false] at he
  rcases he with rfl | rfl | rfl <;> exact ⟨_, _, rfl, rfl, rfl⟩

/-- C4: under the data-model invariant on the set a listing reads (every value
of the set is a byte string that decodes to a list of exactly two byte
strings), every `SectorInfo` returned by `StateMinerSectors`, and likewise by
`StateMinerProvingSet`, was built from an entry of that set whose key parses to
the sector id and whose decoded list has exactly two elements, the first being
`CommR` and the second `CommD`. -/
theorem listed_sector_built_from_exactly_two_commitments (P : Pkgs) (a : StateAPI)
    (addr : Address) (sinfos : List SectorInfo) (err : Option Err) (si : SectorInfo)
    (hsi : si ∈ sinfos) :
    ((∀ nd, sectorSetOf P a addr = .ok nd → ∀ e ∈ nd.entries,
        ∃ b comms, e.2 = Val.bytes b ∧ P.DecodeInto b = .ok comms ∧ comms.length = 2) →
      StateMinerSectors P a addr = .ret sinfos err →
      ∃ nd k b comms, sectorSetOf P a addr = .ok nd ∧ (k, Val.bytes b) ∈ nd.entries ∧
        ParseUint k = .ok si.SectorID ∧ P.DecodeInto b = .ok comms ∧ comms.length = 2 ∧
        comms = [si.CommR, si.CommD]) ∧
    ((∀ nd, provingSetOf P a addr = .ok nd → ∀ e ∈ nd.entries,
        ∃ b comms, e.2 = Val.bytes b ∧ P.DecodeInto b = .ok comms ∧ comms.length = 2) →
      StateMinerProvingSet P a addr = .ret sinfos err →
      ∃ nd k b comms, provingSetOf P a addr = .ok nd ∧ (k, Val.bytes b) ∈ nd.entries ∧
        ParseUint k = .ok si.SectorID ∧ P.DecodeInto b = .ok comms ∧ comms.length = 2 ∧
        comms = [si.CommR, si.CommD]) := by
  have two : ∀ (nd : Node) (k : String) (b : Bytes) (comms : List Bytes),
      (∀ e ∈ nd.entries,
        ∃ b comms, e.2 = Val.bytes b ∧ P.DecodeInto b = .ok comms ∧ comms.length = 2) →
      (k, Val.bytes b) ∈ nd.entries → P.DecodeInto b = .ok comms →
      comms[0]? = some si.CommR → comms[1]? = some si.CommD →
      comms.length = 2 ∧ comms = [si.CommR, si.CommD] := by
    intro nd k b comms hinv hmem hdec h0 h1
    obtain ⟨b2, comms2, hb2, hdec2, hlen2⟩ := hinv (k, Val.bytes b) hmem
    simp only [Val.bytes.injEq] at hb2
    rw [← hb2, hdec] at hdec2
    injection hdec2 with hdec2
    rw [← hdec2] at hlen2
    refine ⟨hlen2, ?_⟩
    match comms, hlen2, h0, h1 with
    | [x, y], _, h0, h1 =>
      simp only [List.getElem?_cons_zero, List.getElem?_cons_succ, Option.some.injEq] at h0 h1
      rw [h0, h1]
  have base := listed_sector_from_entry P a addr sinfos err si hsi
  constructor
  · intro hinv h
    obtain ⟨nd, k, b, comms, hnd, hmem, hk, hdec, _, h0, h1⟩ := base.1 h
    obtain ⟨hlen, heq⟩ := two nd k b comms (hinv nd hnd) hmem hdec h0 h1
    exact ⟨nd, k, b, comms, hnd, hmem, hk, hdec, hlen, heq⟩
  · intro hinv h
    obtain ⟨nd, k, b, comms, hnd, hmem, hk, hdec, _, h0, h1⟩ := base.2 h
    obtain ⟨hlen, heq⟩ := two nd k b comms (hinv nd hnd) hmem hdec h0 h1
    exact ⟨nd, k, b, comms, hnd, hmem, hk, hdec, hlen, heq⟩

/-- C4, on the sector set and the proving set with the keys 1, 2 and 5, read
from a store that also holds the HAMT of the state tree: the entry listed for
sector 5 comes from the value that decodes to its two commitments. -/
theorem listed_sector_built_from_exactly_two_commitments_witness :
    (∃ nd k b comms,
        sectorSetOf (historyPkgs sectors125 sectors125) historyNode sampleMiner = .ok nd ∧
        (k, Val.bytes b) ∈ nd.entries ∧ ParseUint k = .ok 5 ∧
        (historyPkgs sectors125 sectors125).DecodeInto b = .ok comms ∧ comms.length = 2 ∧
        comms = [[51, 52], [53, 54]]) ∧
    (∃ nd k b comms,
        provingSetOf (historyPkgs sectors125 sectors125) historyNode sampleMiner = .ok nd ∧
        (k, Val.bytes b) ∈ nd.entries ∧ ParseUint k = .ok 5 ∧
        (historyPkgs sectors125 sectors125).DecodeInto b = .ok comms ∧ comms.length = 2 ∧
        comms = [[51, 52], [53, 54]]) :=
  ⟨(listed_sector_built_from_exactly_two_commitments (historyPkgs sectors125 sectors125)
      historyNode sampleMiner
      [⟨1, [11, 12], [13, 14]⟩, ⟨2, [21, 22], [23, 24]⟩, ⟨5, [51, 52], [53, 54]⟩]
      none ⟨5, [51, 52], [53, 54]⟩ (by decide)).1
      (by
        intro nd hnd e he
        have h2 : (Except.ok sectors125 : Except Err Node) = .ok nd := hnd
        injection h2 with h2
        exact sectors125_pairs e (h2 ▸ he))
      (by decide),
   (listed_sector_built_from_exactly_two_commitments (historyPkgs sectors125 sectors125)
      historyNode sampleMiner
      [⟨1, [11, 12], [13, 14]⟩, ⟨2, [21, 22], [23, 24]⟩, ⟨5, [51, 52], [53, 54]⟩]
      none ⟨5, [51, 52], [53, 54]⟩ (by decide)).2
      (by
        intro nd hnd e he
        have h2 : (Except.ok sectors125 : Except Err Node) = .ok nd := hnd
        injection h2 with h2
        exact sectors125_pairs e (h2 ▸ he))
      (by decide)⟩

theorem provingSetOf_eq_sectorSetOf (P : Pkgs) (a : StateAPI) (addr : Address)
    (h : a.Chain = a.StateManager.ChainStore) :
    provingSetOf P a addr = sectorSetOf P.provingAsSectors a addr := by
  simp only [provingSetOf, sectorSetOf, Pkgs.provingAsSectors, h]
  repeat' split
  all_goals simp_all

/-- C5: when `a.Chain` and `a.StateManager.ChainStore()` are the same chain
store, `StateMinerProvingSet` returns exactly what `StateMinerSectors` returns
once every miner state has its `Sectors` root replaced by its `ProvingSet`
root: the same list in the same order, the same error, the same panic. -/
theorem StateMinerProvingSet_eq_StateMinerSectors_on_proving_set (P : Pkgs) (a : StateAPI)
    (addr : Address) (h : a.Chain = a.StateManager.ChainStore) :
    StateMinerProvingSet P a addr = StateMinerSectors P.provingAsSectors a addr := by
  rw [StateMinerProvingSet_eq, StateMinerSectors_eq, provingSetOf_eq_sectorSetOf P a addr h]
  rfl

/-- C5, on the sample node, whose proving set has the keys 1, 2 and 5 and whose
sector set is empty. -/
theorem StateMinerProvingSet_eq_StateMinerSectors_on_proving_set_witness :
    StateMinerProvingSet (pkgsWith noSectors sectors125) sampleNode sampleMiner =
        StateMinerSectors (pkgsWith noSectors sectors125).provingAsSectors sampleNode
          sampleMiner ∧
      StateMinerProvingSet (pkgsWith noSectors sectors125) sampleNode sampleMiner =
        .ret [⟨1, [11, 12], [13, 14]⟩, ⟨2, [21, 22], [23, 24]⟩, ⟨5, [51, 52], [53, 54]⟩] none :=
  ⟨StateMinerProvingSet_eq_StateMinerSectors_on_proving_set (pkgsWith noSectors sectors125)
      sampleNode sampleMiner rfl,
    by decide⟩

theorem sectorVisit_no_panic (P : Pkgs) (sinfos : List SectorInfo) (e : String × Val)
    (h : ∃ b comms, e.2 = Val.bytes b ∧ P.DecodeInto b = .ok comms ∧ comms.length = 2) :
    sectorVisit P sinfos e.1 e.2 ≠ .panic := by
  intro hp
  have h1 : ∀ t ∈ [e], ∃ b comms, t.2 = Val.bytes b ∧ P.DecodeInto b = .ok comms ∧
      comms.length = 2 := by
    intro t ht
    rw [List.mem_singleton] at ht
    exact ht ▸ h
  apply visitEntries_no_panic P [e] sinfos h1
  obtain ⟨k, v⟩ := e
  simp only [visitEntries]
  simp only at hp
  rw [hp]

/-- C10: when every value of the sector set that `StateMinerSectors` reads is a
byte string that decodes to a list of exactly two byte strings, `comms[0]` and
`comms[1]` are in range on every entry of that set (the callback does not
panic on it) and `StateMinerSectors` does not panic; likewise for
`StateMinerProvingSet` and the proving set it reads. -/
theorem listing_indexes_in_range (P : Pkgs) (a : StateAPI) (addr : Address) :
    ((∀ nd, sectorSetOf P a addr = .ok nd → ∀ e ∈ nd.entries,
        ∃ b comms, e.2 = Val.bytes b ∧ P.DecodeInto b = .ok comms ∧ comms.length = 2) →
      (∀ nd, sectorSetOf P a addr = .ok nd → ∀ e ∈ nd.entries, ∀ sinfos,
        sectorVisit P sinfos e.1 e.2 ≠ .panic) ∧
      StateMinerSectors P a addr ≠ .panic) ∧
    ((∀ nd, provingSetOf P a addr = .ok nd → ∀ e ∈ nd.entries,
        ∃ b comms, e.2 = Val.bytes b ∧ P.DecodeInto b = .ok comms ∧ comms.length = 2) →
      (∀ nd, provingSetOf P a addr = .ok nd → ∀ e ∈ nd.entries, ∀ sinfos,
        sectorVisit P sinfos e.1 e.2 ≠ .panic) ∧
      StateMinerProvingSet P a addr ≠ .panic) := by
  constructor
  · intro hinv
    refine ⟨fun nd hnd e he sinfos => sectorVisit_no_panic P sinfos e (hinv nd hnd e he), ?_⟩
    rw [StateMinerSectors_eq]
    split
    · simp
    · rename_i nd hnd
      have := ForEach_no_panic P nd [] (hinv nd hnd)
      split <;> simp_all
  · intro hinv
    refine ⟨fun nd hnd e he sinfos => sectorVisit_no_panic P sinfos e (hinv nd hnd e he), ?_⟩
    rw [StateMinerProvingSet_eq]
    split
    · simp
    · rename_i nd hnd
      have := ForEach_no_panic P nd [] (hinv nd hnd)
      split <;> simp_all

/-- C10, on a node whose sector set and proving set have the keys 1, 2 and 5
and whose store also holds the HAMT of the state tree, a node whose values are
not pairs of commitments. -/
theorem listing_indexes_in_range_witness :
    ((∀ nd, sectorSetOf (historyPkgs sectors125 sectors125) historyNode sampleMiner = .ok nd →
          ∀ e ∈ nd.entries, ∀ sinfos,
            sectorVisit (historyPkgs sectors125 sectors125) sinfos e.1 e.2 ≠ .panic) ∧
        StateMinerSectors (historyPkgs sectors125 sectors125) historyNode sampleMiner ≠
          .panic) ∧
      ((∀ nd, provingSetOf (historyPkgs sectors125 sectors125) historyNode sampleMiner = .ok nd →
          ∀ e ∈ nd.entries, ∀ sinfos,
            sectorVisit (historyPkgs sectors125 sectors125) sinfos e.1 e.2 ≠ .panic) ∧
        StateMinerProvingSet (historyPkgs sectors125 sectors125) historyNode sampleMiner ≠
          .panic) ∧
      (historyPkgs sectors125 sectors125).LoadNode (CSTFromBstore sampleChain.bs)
          ⟨"state-root"⟩ = .ok actorsNode ∧
      ¬ ∀ e ∈ actorsNode.entries, ∃ b comms, e.2 = Val.bytes b ∧
          (historyPkgs sectors125 sectors125).DecodeInto b = .ok comms ∧ comms.length = 2 :=
  ⟨(listing_indexes_in_range (historyPkgs sectors125 sectors125) historyNode sampleMiner).1
      (by
        intro nd hnd e he
        have h2 : (Except.ok sectors125 : Except Err Node) = .ok nd := hnd
        injection h2 with h2
        exact sectors125_pairs e (h2 ▸ he)),
   (listing_indexes_in_range (historyPkgs sectors125 sectors125) historyNode sampleMiner).2
      (by
        intro nd hnd e he
        have h2 : (Except.ok sectors125 : Except Err Node) = .ok nd := hnd
        injection h2 with h2
        exact sectors125_pairs e (h2 ▸ he)),
   rfl,
   by
     intro h
     obtain ⟨b, comms, hb, _⟩ := h ("t0101", .other "actor record") (List.mem_singleton.mpr rfl)
     exact absurd hb (by simp)⟩

/-! ## Actor lookup and state dump -/

/-- C3: let `root` be the state root that `TipSetState` gives for the requested
tipset (for the heaviest tipset of `a.Chain` when `ts` is nil) and `state` the
tree that `LoadStateTree` loads for `root`.  `StateGetActor` fails with
`ActorNotFound` and returns no record for an address absent from `state`,
returns exactly the record of `state` and no error for an address present in
it, and passes any error of `GetActor` on as it is. -/
theorem StateGetActor_absent_or_present (P : Pkgs) (a : StateAPI) (actor : Address)
    (ts : Option TipSet) (root : Cid) (state : StateTree)
    (hroot : a.StateManager.TipSetState (ts.getD a.Chain.GetHeaviestTipSet).Cids = .ok root)
    (htree : P.LoadStateTree (CSTFromBstore (P.NewBufferedBstore a.Chain.Blockstore)) root =
      .ok state) :
    (state.find actor = .ok none →
        StateGetActor P a actor ts = (none, some Err.actorNotFound)) ∧
      (∀ act, state.find actor = .ok (some act) →
        StateGetActor P a actor ts = (some act, none)) ∧
      (∀ err, state.GetActor actor = .error err →
        StateGetActor P a actor ts = (none, some err)) := by
  have hstate : stateForTs P a ts = .ok state := by
    cases ts with
    | none =>
      simp only [Option.getD] at hroot
      simp only [stateForTs, hroot, htree]
    | some t =>
      simp only [Option.getD] at hroot
      simp only [stateForTs, hroot, htree]
  refine ⟨?_, ?_, ?_⟩
  · intro h
    simp [StateGetActor, hstate, StateTree.GetActor, h]
  · intro act h
    simp [StateGetActor, hstate, StateTree.GetActor, h]
  · intro err h
    simp [StateGetActor, hstate, h]

/-- C3, on a node with two tipsets: the sample miner is absent from the tree of
the older tipset and present in the tree of the heaviest one, which a nil
tipset stands for; the address `t0999` is absent from the tree of the heaviest
tipset. -/
theorem StateGetActor_absent_or_present_witness :
    StateGetActor (historyPkgs noSectors noSectors) historyNode sampleMiner
        (some olderTipSet) = (none, some Err.actorNotFound) ∧
      StateGetActor (historyPkgs noSectors noSectors) historyNode sampleMiner none =
        (some sampleActor, none) ∧
      StateGetActor (historyPkgs noSectors noSectors) historyNode sampleMiner
        (some sampleChain.heaviest) = (some sampleActor, none) ∧
      StateGetActor (historyPkgs noSectors noSectors) historyNode ⟨"t0999"⟩ none =
        (none, some Err.actorNotFound) :=
  ⟨(StateGetActor_absent_or_present (historyPkgs noSectors noSectors) historyNode sampleMiner
      (some olderTipSet) ⟨"old-root"⟩ _ rfl rfl).1 rfl,
   (StateGetActor_absent_or_present (historyPkgs noSectors noSectors) historyNode sampleMiner
      none ⟨"state-root"⟩ _ rfl rfl).2.1 sampleActor rfl,
   (StateGetActor_absent_or_present (historyPkgs noSectors noSectors) historyNode sampleMiner
      (some sampleChain.heaviest) ⟨"state-root"⟩ _ rfl rfl).2.1 sampleActor rfl,
   (StateGetActor_absent_or_present (historyPkgs noSectors noSectors) historyNode ⟨"t0999"⟩
      none ⟨"state-root"⟩ _ rfl rfl).2.2 Err.actorNotFound rfl⟩

/-- C6: `StateMinerWorker` calls the state manager with the message whose
`From` and `To` are the miner and whose `Method` is `GetWorkerAddr`; it returns
`(w, nil)` exactly when that call returns a receipt without error, the exit
code of the receipt is 0 and its return bytes decode to the address `w`; in
every other case it returns the undefined address together with an error. -/
theorem StateMinerWorker_result (P : Pkgs) (a : StateAPI) (m : Address) (ts : Option TipSet) :
    (∀ w, StateMinerWorker P a m ts = (w, none) ↔
        ∃ ret, a.StateManager.Call { From := m, To := m, Method := P.GetWorkerAddr } ts = .ok ret ∧
          ret.ExitCode = 0 ∧ P.NewFromBytes ret.Return = .ok w) ∧
      ((¬ ∃ ret w, a.StateManager.Call { From := m, To := m, Method := P.GetWorkerAddr } ts =
            .ok ret ∧ ret.ExitCode = 0 ∧ P.NewFromBytes ret.Return = .ok w) →
        ∃ err, StateMinerWorker P a m ts = (Address.Undef, some err)) := by
  unfold StateMinerWorker
  cases hcall : a.StateManager.Call { From := m, To := m, Method := P.GetWorkerAddr } ts with
  | error e => simp
  | ok ret =>
    by_cases hcode : ret.ExitCode = 0
    · cases hdec : P.NewFromBytes ret.Return with
      | error e => simp [hcode, hdec]
      | ok w0 =>
        refine ⟨fun w => ⟨fun h => ?_, fun h => ?_⟩, fun h => absurd ⟨ret, w0, rfl, hcode, hdec⟩ h⟩
        · simp only [hcode, ne_eq, not_true_eq_false, if_false, hdec, Prod.mk.injEq,
            and_true] at h
          exact ⟨ret, rfl, hcode, h ▸ hdec⟩
        · obtain ⟨ret2, h1, _, h3⟩ := h
          injection h1 with h1
          rw [← h1, hdec] at h3
          injection h3 with h3
          simp [hcode, hdec, h3]
    · simp [hcode]

/-- C6, on the sample node: a receipt with exit code 0 whose bytes decode gives
the worker address, a receipt with exit code 2 gives the undefined address and
an error. -/
theorem StateMinerWorker_result_witness :
    StateMinerWorker (pkgsWith noSectors noSectors)
        (sampleAPI (.ok workerReceipt) (.error (.collaborator "stmgr: replay failed")))
        sampleMiner none = (⟨"t3w"⟩, none) ∧
      ∃ err, StateMinerWorker (pkgsWith noSectors noSectors)
        (sampleAPI (.ok failedReceipt) (.error (.collaborator "stmgr: replay failed")))
        sampleMiner none = (Address.Undef, some err) :=
  ⟨((StateMinerWorker_result (pkgsWith noSectors noSectors)
      (sampleAPI (.ok workerReceipt) (.error (.collaborator "stmgr: replay failed")))
      sampleMiner none).1 ⟨"t3w"⟩).2 ⟨workerReceipt, rfl, rfl, rfl⟩,
   (StateMinerWorker_result (pkgsWith noSectors noSectors)
      (sampleAPI (.ok failedReceipt) (.error (.collaborator "stmgr: replay failed")))
      sampleMiner none).2 (by
        rintro ⟨ret, w, hcall, hcode, _⟩
        have hret : ret = failedReceipt := by
          have h2 : (Except.ok failedReceipt : Except Err MessageReceipt) = .ok ret := hcall
          injection h2 with h2
          exact h2.symm
        rw [hret] at hcode
        exact absurd hcode (by decide))⟩

/-- C7: when the state manager's `Replay` returns `(m, r)` without error,
`StateReplay` returns no error and a result whose `Msg` is `m`, whose `Receipt`
is the message receipt of `r` and whose `Error` is the text of the actor error
of `r`, or the empty string when `r` carries none; when `Replay` fails,
`StateReplay` returns no result and that error. -/
theorem StateReplay_result (a : StateAPI) (ts : Option TipSet) (mc : Cid) :
    (∀ m r, a.StateManager.Replay ts mc = .ok (m, r) →
        ∃ res, StateReplay a ts mc = (some res, none) ∧ res.Msg = m ∧
          res.Receipt = r.MessageReceipt ∧
          (∀ ae, r.ActorErr = some ae → res.Error = ae.Error) ∧
          (r.ActorErr = none → res.Error = "")) ∧
      (∀ err, a.StateManager.Replay ts mc = .error err →
        StateReplay a ts mc = (none, some err)) := by
  constructor
  · intro m r h
    refine ⟨_, by simp only [StateReplay, h]; rfl, rfl, rfl, ?_, ?_⟩
    · intro ae hae
      simp [hae]
    · intro hae
      simp [hae]
  · intro err h
    simp [StateReplay, h]

/-- C7, on the sample node: a replay that ended with an actor error, one that
ended without, and a replay that failed. -/
theorem StateReplay_result_witness :
    (∃ res, StateReplay (sampleAPI (.ok workerReceipt) (.ok (replayedMsg, abortedRet))) none
          ⟨"msg-1"⟩ = (some res, none) ∧ res.Msg = replayedMsg ∧
        res.Receipt = abortedRet.MessageReceipt ∧
        (∀ ae, abortedRet.ActorErr = some ae → res.Error = ae.Error) ∧
        (abortedRet.ActorErr = none → res.Error = "")) ∧
      (∃ res, StateReplay (sampleAPI (.ok workerReceipt) (.ok (replayedMsg, cleanRet))) none
          ⟨"msg-1"⟩ = (some res, none) ∧ res.Msg = replayedMsg ∧
        res.Receipt = cleanRet.MessageReceipt ∧
        (∀ ae, cleanRet.ActorErr = some ae → res.Error = ae.Error) ∧
        (cleanRet.ActorErr = none → res.Error = "")) ∧
      StateReplay sampleNode none ⟨"msg-1"⟩ =
        (none, some (.collaborator "stmgr: replay failed")) :=
  ⟨(StateReplay_result (sampleAPI (.ok workerReceipt) (.ok (replayedMsg, abortedRet))) none
      ⟨"msg-1"⟩).1 replayedMsg abortedRet rfl,
   (StateReplay_result (sampleAPI (.ok workerReceipt) (.ok (replayedMsg, cleanRet))) none
      ⟨"msg-1"⟩).1 replayedMsg cleanRet rfl,
   (StateReplay_result sampleNode none ⟨"msg-1"⟩).2 _ rfl⟩

/-- C8: when the state of the tipset resolves, `StateReadState` returns the
balance of the actor record together with the decoding, by the codec registered
for `act.Code`, of the block stored under `act.Head`; when the block cannot be
fetched it returns that error, when no codec is registered for `act.Code` it
returns `UnsupportedActorKind`, when the codec fails it returns the codec's
error, and in these three cases no `ActorState`. -/
theorem StateReadState_result (P : Pkgs) (a : StateAPI) (act : Actor) (ts : Option TipSet)
    (state : StateTree) (hstate : stateForTs P a ts = .ok state) :
    (∀ err, state.Store.Blocks.GetBlock act.Head = .error err →
        StateReadState P a act ts = (none, some err)) ∧
      (∀ blk, state.Store.Blocks.GetBlock act.Head = .ok blk → P.registry act.Code = none →
        StateReadState P a act ts = (none, some Err.unsupportedActorKind)) ∧
      (∀ blk dec, state.Store.Blocks.GetBlock act.Head = .ok blk →
        P.registry act.Code = some dec →
        (∀ oif, dec blk = .ok oif →
          StateReadState P a act ts = (some { Balance := act.Balance, State := oif }, none)) ∧
        (∀ err, dec blk = .error err → StateReadState P a act ts = (none, some err))) := by
  refine ⟨?_, ?_, ?_⟩
  · intro err h
    simp [StateReadState, hstate, h]
  · intro blk h hreg
    simp [StateReadState, hstate, h, DumpActorState, hreg]
  · intro blk dec h hreg
    constructor
    · intro oif hdec
      simp [StateReadState, hstate, h, DumpActorState, hreg, hdec]
    · intro err hdec
      simp [StateReadState, hstate, h, DumpActorState, hreg, hdec]

/-- C8, on the sample node: the state of the sample miner is decoded, an actor
of an unknown kind gives `UnsupportedActorKind`, an actor whose state block is
absent gives the error of the block store. -/
theorem StateReadState_result_witness :
    StateReadState (pkgsWith noSectors noSectors) sampleNode sampleActor none =
        (some { Balance := 1000, State := { fields := [("bytes", "3")] } }, none) ∧
      StateReadState (pkgsWith noSectors noSectors) sampleNode unknownKindActor none =
        (none, some Err.unsupportedActorKind) ∧
      StateReadState (pkgsWith noSectors noSectors) sampleNode headlessActor none =
        (none, some (.collaborator "blockstore: block not found")) :=
  ⟨((StateReadState_result (pkgsWith noSectors noSectors) sampleNode sampleActor none _ rfl).2.2
      [162, 1, 2] _ rfl rfl).1 _ rfl,
   (StateReadState_result (pkgsWith noSectors noSectors) sampleNode unknownKindActor none _
      rfl).2.1 [162, 1, 2] rfl rfl,
   (StateReadState_result (pkgsWith noSectors noSectors) sampleNode headlessActor none _
      rfl).1 _ rfl⟩

/-! ## Block construction -/

theorem appendCids_eq_map {μ : Type} (cidOf : μ → Cid) :
    ∀ (msgs : List μ) (out : List Cid), appendCids cidOf msgs out = out ++ msgs.map cidOf := by
  intro msgs
  induction msgs with
  | nil => intro out; simp [appendCids]
  | cons msg rest ih =>
    intro out
    have := ih (out ++ [cidOf msg])
    simp only [appendCids, List.foldl_cons, List.map_cons] at this ⊢
    rw [this]
    simp

/-- C9: when the block-construction collaborator returns the block `fblk`,
`MinerCreateBlock` returns no error and a `BlockMsg` whose `Header` is
`fblk.Header`, whose `BlsMessages` are the CIDs of `fblk.BlsMessages` and whose
`SecpkMessages` are the CIDs of `fblk.SecpkMessages`, each of the same length
and in the same order as its source list; when the collaborator fails,
`MinerCreateBlock` returns no `BlockMsg` and that error. -/
theorem MinerCreateBlock_result (P : Pkgs) (a : StateAPI) (addr : Address)
    (parents : Option TipSet) (tickets : List Ticket) (proof : Bytes)
    (msgs : List SignedMessage) (ts : Nat) :
    (∀ fblk,
        P.MinerCreateBlock a.StateManager a.Wallet addr parents tickets proof msgs ts =
          .ok fblk →
        ∃ out, MinerCreateBlock P a addr parents tickets proof msgs ts = (some out, none) ∧
          out.Header = fblk.Header ∧
          out.BlsMessages = fblk.BlsMessages.map P.msgCid ∧
          out.SecpkMessages = fblk.SecpkMessages.map P.smsgCid ∧
          out.BlsMessages.length = fblk.BlsMessages.length ∧
          out.SecpkMessages.length = fblk.SecpkMessages.length) ∧
      (∀ err,
        P.MinerCreateBlock a.StateManager a.Wallet addr parents tickets proof msgs ts =
          .error err →
        MinerCreateBlock P a addr parents tickets proof msgs ts = (none, some err)) := by
  constructor
  · intro fblk h
    refine ⟨_, by simp only [MinerCreateBlock, h]; rfl, rfl, ?_, ?_, ?_, ?_⟩
    · simp [appendCids_eq_map]
    · simp [appendCids_eq_map]
    · simp [appendCids_eq_map]
    · simp [appendCids_eq_map]
  · intro err h
    simp [MinerCreateBlock, h]

/-- C9, on the sample node: a block with two BLS messages and one secp message,
and a failed construction. -/
theorem MinerCreateBlock_result_witness :
    (∃ out, MinerCreateBlock (samplePkgs noSectors noSectors (.ok builtBlock)) sampleNode
          sampleMiner none [] [] [] 1570000000 = (some out, none) ∧
        out.Header = builtBlock.Header ∧
        out.BlsMessages = [⟨"bls-1"⟩, ⟨"bls-2"⟩] ∧
        out.SecpkMessages = [⟨"secp-7"⟩]) ∧
      MinerCreateBlock (pkgsWith noSectors noSectors) sampleNode sampleMiner none [] [] []
          1570000000 = (none, some (.collaborator "gen: no block")) :=
  ⟨by
      obtain ⟨out, h1, h2, h3, h4, _, _⟩ :=
        (MinerCreateBlock_result (samplePkgs noSectors noSectors (.ok builtBlock)) sampleNode
          sampleMiner none [] [] [] 1570000000).1 builtBlock rfl
      exact ⟨out, h1, h2, h3.trans (by decide), h4.trans (by decide)⟩,
   (MinerCreateBlock_result (pkgsWith noSectors noSectors) sampleNode sampleMiner none [] [] []
      1570000000).2 _ rfl⟩

end Full
